import Mathlib

/-!
Verification of the ConcreteDropout module (condrop/concrete_dropout.py).

The module is embedded shallowly over the reals: tensors are a shape
(list of dimension sizes), a dtype tag and a flat list of real entries;
elementwise torch operations become maps and zips over the data list.
The scalar-shaped fields p_logit and p (stored as one-element tensors in
the source) are embedded as real scalars.  The uniform noise drawn by
torch.rand_like is passed in explicitly as a tensor argument, and the
value drawn for p_logit by uniform_ in the constructor as a real
argument, so that all functions are deterministic in their inputs.
Fallible indexing (the access to the first element of the batch in
forward, which raises on an empty batch) makes forward return an Option.
-/

noncomputable section

namespace CondRop

open Real

/-- torch.sigmoid on a real scalar. -/
def sigmoid (z : ℝ) : ℝ := 1 / (1 + Real.exp (-z))

/-- The floating point dtypes the module can run at. -/
inductive DType where
  | float32
  | float64
deriving DecidableEq

/-- torch.finfo(dtype).eps, the machine epsilon of the dtype. -/
def DType.eps : DType → ℝ
  | DType.float32 => (2 : ℝ) ^ (-23 : ℤ)
  | DType.float64 => (2 : ℝ) ^ (-52 : ℤ)

/-- A tensor: shape, dtype and flat real data. -/
structure Tensor where
  shape : List ℕ
  dtype : DType
  data : List ℝ

/-- An elementwise unary torch operation (shape and dtype preserving). -/
def Tensor.map (f : ℝ → ℝ) (t : Tensor) : Tensor :=
  ⟨t.shape, t.dtype, t.data.map f⟩

/-- torch.mul of two same-shaped tensors (elementwise product). -/
def Tensor.zipMul (a b : Tensor) : Tensor :=
  ⟨a.shape, a.dtype, List.zipWith (fun v w => v * w) a.data b.data⟩

/-- Tensor.numel: the number of elements, the product of the dimensions. -/
def Tensor.numel (t : Tensor) : ℕ := t.shape.prod

/-- torch.sum(torch.pow(t, 2)): the sum of the squared entries. -/
def Tensor.sumPow2 (t : Tensor) : ℝ := (t.data.map fun v => v ^ 2).sum

/-- The layer handed to forward: its action on tensors and the list of
its trainable parameter tensors (layer.parameters()). -/
structure Layer where
  apply : Tensor → Tensor
  params : List Tensor

/-- The mutable state of a ConcreteDropout unit: the constructor
arguments it stores, the learnable logit, the cached keep probability,
the cached regularisation, and the nn.Module training flag. -/
structure ConcreteDropout where
  weight_regulariser : ℝ
  dropout_regulariser : ℝ
  p_logit : ℝ
  p : ℝ
  temperature : ℝ
  mc_dropout : Bool
  regularisation : ℝ
  training : Bool

/-- The constructor.  sample is the value that uniform_ draws for
p_logit from the logit-transformed interval between init_min and
init_max (with the defaults the interval is degenerate).  A freshly
constructed nn.Module is in training mode and the regularisation
attribute starts at 0. -/
def init (weight_regulariser dropout_regulariser init_min init_max
    temperate : ℝ) (mc_dropout : Bool) (sample : ℝ) : ConcreteDropout :=
  { weight_regulariser := weight_regulariser
    dropout_regulariser := dropout_regulariser
    p_logit := sample
    p := sigmoid sample
    temperature := temperate
    mc_dropout := mc_dropout
    regularisation := 0
    training := true }

/-- The _concrete_dropout method: recomputes and stores
p = sigmoid(p_logit), then builds the relaxed dropout mask from the
uniform noise u_noise (torch.rand_like(x)) and rescales.  The division
in the sigmoid relaxation uses the local constant tmp = 0.1, not the
stored temperature field. -/
def _concrete_dropout (m : ConcreteDropout) (x u_noise : Tensor) :
    ConcreteDropout × Tensor :=
  let eps := x.dtype.eps
  let tmp : ℝ := 0.1
  let p := sigmoid m.p_logit
  let drop_prob := u_noise.map fun u =>
    Real.log (p + eps) - Real.log (1 - p + eps)
      + Real.log (u + eps) - Real.log (1 - u + eps)
  let drop_prob := drop_prob.map fun s => sigmoid (s / tmp)
  let random_dropout_mask := drop_prob.map fun d => 1 - d
  let retain_prob := 1 - p
  ({ m with p := p },
   (x.zipMul random_dropout_mask).map fun v => v / retain_prob)

/-- The weights regularisation line of forward. -/
def weights_reg (weight_regulariser sum_of_squares p : ℝ) : ℝ :=
  weight_regulariser * sum_of_squares / (1 - p)

/-- The dropout regularisation lines of forward: the (negative) entropy
of p scaled by the dropout regulariser times the per-sample element
count. -/
def dropout_reg (dropout_regulariser : ℝ) (numel : ℕ) (p : ℝ) : ℝ :=
  (p * Real.log p + (1 - p) * Real.log (1 - p))
    * (dropout_regulariser * numel)

/-- The forward method.  In training mode or with mc_dropout set, the
input goes through _concrete_dropout (which updates the cached p) and
then through the layer; otherwise it goes through the layer unchanged.
The regularisation attribute is then overwritten using the cached p and
the element count of the first sample of the batch; indexing that first
sample raises (None here) when the batch is empty or x has no
dimensions.  Returns the updated unit, the (unmodified) layer and the
output tensor. -/
def forward (m : ConcreteDropout) (x : Tensor) (layer : Layer)
    (u_noise : Tensor) : Option (ConcreteDropout × Layer × Tensor) :=
  let step :=
    if m.training || m.mc_dropout then
      ((_concrete_dropout m x u_noise).1,
        layer.apply (_concrete_dropout m x u_noise).2)
    else (m, layer.apply x)
  let m1 := step.1
  let output := step.2
  let sum_of_squares := (layer.params.map Tensor.sumPow2).sum
  match x.shape with
  | [] => none
  | 0 :: _ => none
  | _ :: rest =>
      let reg := weights_reg m1.weight_regulariser sum_of_squares m1.p
        + dropout_reg m1.dropout_regulariser rest.prod m1.p
      some ({ m1 with regularisation := reg }, layer, output)

/-- The dropout transform as the specification words it: with
score = log(p+eps) - log(1-p+eps) + log(u+eps) - log(1-u+eps),
drop_prob = sigmoid(score / 0.1) and mask = 1 - drop_prob, the result is
x * mask / (1 - p), elementwise, keeping the shape and dtype of x. -/
def specDropoutTransform (p eps : ℝ) (x u : Tensor) : Tensor :=
  ⟨x.shape, x.dtype,
    List.zipWith (fun xi ui =>
      xi * (1 - sigmoid ((Real.log (p + eps) - Real.log (1 - p + eps)
          + Real.log (ui + eps) - Real.log (1 - ui + eps)) / 0.1))
        / (1 - p)) x.data u.data⟩

/-- The regularisation value as the specification words it. -/
def specRegularisation (weight_regulariser dropout_regulariser
    sum_of_squares : ℝ) (numel : ℕ) (p : ℝ) : ℝ :=
  weight_regulariser * sum_of_squares / (1 - p)
    + dropout_regulariser * numel
      * (p * Real.log p + (1 - p) * Real.log (1 - p))

/-- The state part of _concrete_dropout: only p changes. -/
theorem _concrete_dropout_fst (m : ConcreteDropout) (x u : Tensor) :
    (_concrete_dropout m x u).1 = { m with p := sigmoid m.p_logit } := rfl

/-- A concrete unit state used as a test vector.  Its cached p (1/2,
from an earlier p_logit of 0) is stale with respect to the current
p_logit of 1 — the situation that arises whenever an optimiser step
updates p_logit between forward passes.  The unit is in inference mode
with mc_dropout off. -/
def exS : ConcreteDropout :=
  { weight_regulariser := 1, dropout_regulariser := 0, p_logit := 1,
    p := 1/2, temperature := 1/10, mc_dropout := false,
    regularisation := 0, training := false }

/-- The same unit state, in training mode. -/
def trainS : ConcreteDropout := { exS with training := true }

/-- A concrete one-element batch input. -/
def exX : Tensor := ⟨[1], DType.float64, [0]⟩

/-- A concrete identity layer with a single one-element parameter. -/
def exL : Layer := ⟨fun t => t, [⟨[1], DType.float64, [1]⟩]⟩

/-- A concrete uniform noise draw for exX. -/
def exU : Tensor := ⟨[1], DType.float64, [1/2]⟩

/-- A second, different uniform noise draw for exX. -/
def exU2 : Tensor := ⟨[1], DType.float64, [1/4]⟩

/-- The result of forward on the inference-mode test vector: the layer
output is the unmodified input, and the regularisation is computed from
the stale cached p = 1/2, giving 1 * 1 / (1 - 1/2) = 2. -/
def exR : ConcreteDropout × Layer × Tensor :=
  ({ exS with regularisation := 2 }, exL, exX)

/-- Evaluating forward on the inference-mode test vector. -/
theorem forward_ex : forward exS exX exL exU = some exR := by
  simp [forward, exS, exX, exL, exU, exR, Tensor.sumPow2, weights_reg,
    dropout_reg]
  norm_num

/-- The data-level identity between the _concrete_dropout method and
the transform as the specification words it. -/
theorem _concrete_dropout_snd (m : ConcreteDropout) (x u : Tensor) :
    (_concrete_dropout m x u).2
      = specDropoutTransform (sigmoid m.p_logit) x.dtype.eps x u := by
  simp only [_concrete_dropout, specDropoutTransform, Tensor.map,
    Tensor.zipMul, List.map_map, List.zipWith_map_right, List.map_zipWith,
    Function.comp]

/-- C1: in training mode or with mc_dropout set, the dropout transform
applied to x is exactly: with u the uniform draw of the shape of x and
eps the machine epsilon of the dtype of x, score = log(p+eps) -
log(1-p+eps) + log(u+eps) - log(1-u+eps) with p = sigmoid(p_logit),
drop_prob = sigmoid(score / 0.1), mask = 1 - drop_prob, result =
x * mask / (1 - p); the result keeps the shape and dtype of x, and the
output of forward is the layer applied to exactly this transform. -/
theorem dropout_transform_formula (m : ConcreteDropout) (x u : Tensor)
    (layer : Layer) (hu : u.shape = x.shape)
    (htr : (m.training || m.mc_dropout) = true) :
    (forward m x layer u).map (fun r => r.2.2)
        = (forward m x layer u).map (fun _ =>
            layer.apply
              (specDropoutTransform (sigmoid m.p_logit) x.dtype.eps x u)) ∧
    (_concrete_dropout m x u).2
        = specDropoutTransform (sigmoid m.p_logit) x.dtype.eps x u ∧
    (_concrete_dropout m x u).2.shape = x.shape ∧
    (_concrete_dropout m x u).2.dtype = x.dtype := by
  refine ⟨?_, _concrete_dropout_snd m x u, rfl, rfl⟩
  cases hx : x.shape with
  | nil => simp [forward, hx]
  | cons k rest =>
      cases k with
      | zero => simp [forward, hx]
      | succ n => simp [forward, hx, htr, _concrete_dropout_snd]

/-- C1 witness: the theorem applied to the training-mode test vector. -/
theorem dropout_transform_formula_witness :
    exU.shape = exX.shape ∧ (trainS.training || trainS.mc_dropout) = true ∧
    ((forward trainS exX exL exU).map (fun r => r.2.2)
        = (forward trainS exX exL exU).map (fun _ =>
            exL.apply (specDropoutTransform (sigmoid trainS.p_logit)
              exX.dtype.eps exX exU)) ∧
      (_concrete_dropout trainS exX exU).2
          = specDropoutTransform (sigmoid trainS.p_logit) exX.dtype.eps
              exX exU ∧
      (_concrete_dropout trainS exX exU).2.shape = exX.shape ∧
      (_concrete_dropout trainS exX exU).2.dtype = exX.dtype) :=
  ⟨rfl, rfl, dropout_transform_formula trainS exX exU exL rfl rfl⟩

/-- The unit state forward returns on a nonempty batch: p replaced by
pv and the regularisation recomputed from pv. -/
def forwardState (m : ConcreteDropout) (sum_of_squares : ℝ) (numel : ℕ)
    (pv : ℝ) : ConcreteDropout :=
  { m with p := pv, regularisation :=
      weights_reg m.weight_regulariser sum_of_squares pv
        + dropout_reg m.dropout_regulariser numel pv }

/-- Characterisation of forward on a batch with nonzero leading
dimension. -/
theorem forward_eq_some (m : ConcreteDropout) (x : Tensor) (layer : Layer)
    (u : Tensor) (n : ℕ) (rest : List ℕ) (hx : x.shape = (n + 1) :: rest) :
    forward m x layer u = some
      (forwardState m ((layer.params.map Tensor.sumPow2).sum) rest.prod
        (if m.training || m.mc_dropout then sigmoid m.p_logit else m.p),
       layer,
       if m.training || m.mc_dropout then
         layer.apply (_concrete_dropout m x u).2
       else layer.apply x) := by
  by_cases ht : (m.training || m.mc_dropout) = true
  · simp [forward, hx, ht, forwardState, _concrete_dropout_fst]
  · rw [Bool.not_eq_true] at ht
    simp [forward, hx, ht, forwardState]

/-- The cached p stored by forward: recomputed from p_logit only when
training or mc_dropout is set, left stale otherwise. -/
theorem forward_p_char (m : ConcreteDropout) (x : Tensor) (layer : Layer)
    (u : Tensor) (r : ConcreteDropout × Layer × Tensor)
    (h : forward m x layer u = some r) :
    r.1.p = if m.training || m.mc_dropout then sigmoid m.p_logit
      else m.p := by
  cases hx : x.shape with
  | nil => simp [forward, hx] at h
  | cons k rest =>
    cases k with
    | zero => simp [forward, hx] at h
    | succ n =>
      rw [forward_eq_some m x layer u n rest hx] at h
      cases h
      rfl

/-- C3: in inference mode with mc_dropout off, forward passes the input
to the layer unmodified: the output is exactly the layer applied to x
(on any batch with nonzero leading dimension, where forward succeeds). -/
theorem inference_bypass (m : ConcreteDropout) (x : Tensor) (layer : Layer)
    (u : Tensor) (n : ℕ) (rest : List ℕ)
    (h1 : m.training = false) (h2 : m.mc_dropout = false)
    (hx : x.shape = (n + 1) :: rest) :
    ∃ m1, forward m x layer u = some (m1, layer, layer.apply x) := by
  refine ⟨forwardState m ((layer.params.map Tensor.sumPow2).sum)
    rest.prod m.p, ?_⟩
  rw [forward_eq_some m x layer u n rest hx]
  simp [h1, h2]

/-- C3 witness: the theorem applied to the inference-mode test vector. -/
theorem inference_bypass_witness :
    exS.training = false ∧ exS.mc_dropout = false ∧
    exX.shape = (0 + 1) :: [] ∧
    ∃ m1, forward exS exX exL exU = some (m1, exL, exL.apply exX) :=
  ⟨rfl, rfl, rfl, inference_bypass exS exX exL exU 0 [] rfl rfl rfl⟩

/-- C4 (amended): the cached field p is overwritten with
sigmoid(p_logit) before the regularisation is computed only when the
unit is in training mode or mc_dropout is true; in inference mode with
mc_dropout false the cached p is left unchanged. -/
theorem forward_p_update (m : ConcreteDropout) (x : Tensor) (layer : Layer)
    (u : Tensor) (r : ConcreteDropout × Layer × Tensor)
    (h : forward m x layer u = some r) :
    r.1.p = if m.training || m.mc_dropout then sigmoid m.p_logit
      else m.p :=
  forward_p_char m x layer u r h

/-- C4 witness: the theorem applied to the inference-mode test vector. -/
theorem forward_p_update_witness :
    forward exS exX exL exU = some exR ∧
    exR.1.p = (if exS.training || exS.mc_dropout then sigmoid exS.p_logit
      else exS.p) :=
  ⟨forward_ex, forward_p_update exS exX exL exU exR forward_ex⟩

/-- sigmoid is strictly positive. -/
theorem sigmoid_pos (z : ℝ) : 0 < sigmoid z := by
  unfold sigmoid
  positivity

/-- sigmoid is strictly below one. -/
theorem sigmoid_lt_one (z : ℝ) : sigmoid z < 1 := by
  unfold sigmoid
  rw [div_lt_one (by positivity)]
  have := Real.exp_pos (-z)
  linarith

/-- sigmoid at 1 is not one half (since exp(-1) is not 1). -/
theorem sigmoid_one_ne_half : sigmoid (1 : ℝ) ≠ 1 / 2 := by
  intro hcon
  have hpos : (0 : ℝ) < 1 + Real.exp (-1) := by positivity
  rw [sigmoid, div_eq_div_iff hpos.ne' (by norm_num)] at hcon
  have he : Real.exp (-1 : ℝ) = 1 := by linarith
  rw [Real.exp_eq_one_iff] at he
  norm_num at he

/-- C4 counterexample: on the inference-mode test vector, whose cached
p (1/2) is stale with respect to p_logit = 1, forward stores p = 1/2
unchanged, and sigmoid(p_logit) is not 1/2 — so p is not recomputed on
every call as the claim states. -/
theorem forward_p_not_recomputed :
    (forward exS exX exL exU).map (fun r => r.1.p) = some (1 / 2 : ℝ) ∧
    sigmoid exS.p_logit ≠ (1 / 2 : ℝ) := by
  constructor
  · rw [forward_ex]
    rfl
  · exact sigmoid_one_ne_half

/-- C2 (amended): forward overwrites the stored regularisation with
weight_regulariser * sum_of_squares / (1-p) + dropout_regulariser *
numel(x[0]) * (p log p + (1-p) log(1-p)), where p is the cached p field
— equal to sigmoid(p_logit) when training or mc_dropout is set, and the
stale cached value otherwise. -/
theorem forward_reg_formula (m : ConcreteDropout) (x : Tensor)
    (layer : Layer) (u : Tensor) (r : ConcreteDropout × Layer × Tensor)
    (h : forward m x layer u = some r) :
    r.1.regularisation = specRegularisation m.weight_regulariser
      m.dropout_regulariser ((layer.params.map Tensor.sumPow2).sum)
      x.shape.tail.prod
      (if m.training || m.mc_dropout then sigmoid m.p_logit else m.p) := by
  cases hx : x.shape with
  | nil => simp [forward, hx] at h
  | cons k rest =>
    cases k with
    | zero => simp [forward, hx] at h
    | succ n =>
      rw [forward_eq_some m x layer u n rest hx] at h
      cases h
      simp only [forwardState, weights_reg, dropout_reg,
        specRegularisation, hx, List.tail_cons]
      ring

/-- C2 witness: the amended theorem applied to the inference-mode test
vector. -/
theorem forward_reg_formula_witness :
    forward exS exX exL exU = some exR ∧
    exR.1.regularisation = specRegularisation exS.weight_regulariser
      exS.dropout_regulariser ((exL.params.map Tensor.sumPow2).sum)
      exX.shape.tail.prod
      (if exS.training || exS.mc_dropout then sigmoid exS.p_logit
        else exS.p) :=
  ⟨forward_ex, forward_reg_formula exS exX exL exU exR forward_ex⟩

/-- C2 counterexample: on the inference-mode test vector the stored
regularisation is 2, computed from the stale cached p = 1/2, while the
formula of the claim, taken at p = sigmoid(p_logit) = sigmoid 1, gives
a different value — so the claim as stated (with p = sigmoid(p_logit)
on every call) fails. -/
theorem forward_reg_not_from_p_logit :
    (forward exS exX exL exU).map (fun r => r.1.regularisation)
        = some (2 : ℝ) ∧
    specRegularisation 1 0 1 1 (sigmoid exS.p_logit) ≠ (2 : ℝ) := by
  constructor
  · rw [forward_ex]
    rfl
  · have h1 : (0 : ℝ) < 1 - sigmoid 1 := by
      have := sigmoid_lt_one 1
      linarith
    intro hcon
    simp only [specRegularisation, exS, zero_mul, mul_zero, add_zero,
      one_mul] at hcon
    rw [div_eq_iff (ne_of_gt h1)] at hcon
    exact sigmoid_one_ne_half (by linarith)

/-- C8: forward fails (raises on the first-sample indexing) whenever
the leading batch dimension of x is zero. -/
theorem empty_batch_fails (m : ConcreteDropout) (x : Tensor)
    (layer : Layer) (u : Tensor) (rest : List ℕ)
    (hx : x.shape = 0 :: rest) :
    forward m x layer u = none := by
  simp [forward, hx]

/-- A concrete empty-batch input. -/
def exX0 : Tensor := ⟨[0], DType.float64, []⟩

/-- C8 witness: the theorem applied to an empty-batch input. -/
theorem empty_batch_fails_witness :
    exX0.shape = 0 :: [] ∧ forward exS exX0 exL exU = none :=
  ⟨rfl, empty_batch_fails exS exX0 exL exU [] rfl⟩

/-- C9: forward never mutates the layer: the layer value it returns is
the argument itself (so every parameter tensor is unchanged), and of
the unit fields only p and regularisation can change — the two
regularisers, p_logit, temperature, mc_dropout and the training flag
are all preserved. -/
theorem layer_not_mutated (m : ConcreteDropout) (x : Tensor)
    (layer : Layer) (u : Tensor) (r : ConcreteDropout × Layer × Tensor)
    (h : forward m x layer u = some r) :
    r.2.1 = layer ∧
    r.1.weight_regulariser = m.weight_regulariser ∧
    r.1.dropout_regulariser = m.dropout_regulariser ∧
    r.1.p_logit = m.p_logit ∧
    r.1.temperature = m.temperature ∧
    r.1.mc_dropout = m.mc_dropout ∧
    r.1.training = m.training := by
  cases hx : x.shape with
  | nil => simp [forward, hx] at h
  | cons k rest =>
    cases k with
    | zero => simp [forward, hx] at h
    | succ n =>
      rw [forward_eq_some m x layer u n rest hx] at h
      cases h
      exact ⟨rfl, rfl, rfl, rfl, rfl, rfl, rfl⟩

/-- C9 witness: the theorem applied to the inference-mode test vector. -/
theorem layer_not_mutated_witness :
    forward exS exX exL exU = some exR ∧
    (exR.2.1 = exL ∧
     exR.1.weight_regulariser = exS.weight_regulariser ∧
     exR.1.dropout_regulariser = exS.dropout_regulariser ∧
     exR.1.p_logit = exS.p_logit ∧
     exR.1.temperature = exS.temperature ∧
     exR.1.mc_dropout = exS.mc_dropout ∧
     exR.1.training = exS.training) :=
  ⟨forward_ex, layer_not_mutated exS exX exL exU exR forward_ex⟩

/-- C10: in inference mode with mc_dropout off, forward does not read
the random draw at all: its result is the same for any two noise
tensors, so two calls from the same state with the same input and layer
agree exactly (output and stored regularisation alike). -/
theorem inference_deterministic (m : ConcreteDropout) (x : Tensor)
    (layer : Layer) (u1 u2 : Tensor)
    (h1 : m.training = false) (h2 : m.mc_dropout = false) :
    forward m x layer u1 = forward m x layer u2 := by
  simp [forward, h1, h2]

/-- C10 witness: the theorem applied to the inference-mode test vector
with two different noise draws. -/
theorem inference_deterministic_witness :
    exS.training = false ∧ exS.mc_dropout = false ∧
    forward exS exX exL exU = forward exS exX exL exU2 :=
  ⟨rfl, rfl, inference_deterministic exS exX exL exU exU2 rfl rfl⟩

/-- C5: the configured temperature is dead weight.  Two units built
with identical arguments except the temperature, the same p_logit draw
and the same uniform noise produce the same cached p, the same stored
regularisation and the same output — the relaxation divides by the
fixed constant 0.1, never by the stored temperature field. -/
theorem temperature_has_no_effect (wr dr imin imax t1 t2 sample : ℝ)
    (mc : Bool) (x : Tensor) (layer : Layer) (u : Tensor) :
    (forward (init wr dr imin imax t1 mc sample) x layer u).map
        (fun r => (r.1.p, r.1.regularisation, r.2.2))
      = (forward (init wr dr imin imax t2 mc sample) x layer u).map
          (fun r => (r.1.p, r.1.regularisation, r.2.2)) := by
  cases hx : x.shape with
  | nil => simp [forward, hx]
  | cons k rest =>
    cases k with
    | zero => simp [forward, hx]
    | succ n =>
      rw [forward_eq_some _ x layer u n rest hx,
        forward_eq_some _ x layer u n rest hx]
      simp [forwardState, init, _concrete_dropout]

/-- C6: the derived keep probability is strictly inside (0,1): sigmoid
lands in (0,1) for every logit, the constructor stores such a p for
every draw, and forward preserves strict interiority of the cached p
(both when it recomputes p and when it keeps the cached value). -/
theorem p_strictly_inside_unit_interval (z : ℝ)
    (wr dr imin imax t sample : ℝ) (mc : Bool)
    (m : ConcreteDropout) (x : Tensor) (layer : Layer) (u : Tensor)
    (r : ConcreteDropout × Layer × Tensor)
    (hp0 : 0 < m.p) (hp1 : m.p < 1)
    (hr : forward m x layer u = some r) :
    (0 < sigmoid z ∧ sigmoid z < 1) ∧
    (0 < (init wr dr imin imax t mc sample).p
      ∧ (init wr dr imin imax t mc sample).p < 1) ∧
    (0 < r.1.p ∧ r.1.p < 1) := by
  refine ⟨⟨sigmoid_pos z, sigmoid_lt_one z⟩,
    ⟨sigmoid_pos sample, sigmoid_lt_one sample⟩, ?_⟩
  rw [forward_p_char m x layer u r hr]
  by_cases ht : (m.training || m.mc_dropout) = true
  · rw [if_pos ht]
    exact ⟨sigmoid_pos _, sigmoid_lt_one _⟩
  · rw [if_neg ht]
    exact ⟨hp0, hp1⟩

/-- C6 witness: the theorem applied at logit 0, a fresh unit with draw
0, and the inference-mode test vector. -/
theorem p_strictly_inside_unit_interval_witness :
    (0 : ℝ) < exS.p ∧ exS.p < 1 ∧
    forward exS exX exL exU = some exR ∧
    ((0 < sigmoid 0 ∧ sigmoid 0 < 1) ∧
     (0 < (init 1 1 (1/10) (1/10) (1/10) false 0).p
       ∧ (init 1 1 (1/10) (1/10) (1/10) false 0).p < 1) ∧
     (0 < exR.1.p ∧ exR.1.p < 1)) := by
  refine ⟨by norm_num [exS], by norm_num [exS], forward_ex, ?_⟩
  exact p_strictly_inside_unit_interval 0 1 1 (1/10) (1/10) (1/10) 0 false
    exS exX exL exU exR (by norm_num [exS]) (by norm_num [exS]) forward_ex

/-- The dropout regularisation is the negated binary entropy scaled by
the regulariser times the element count. -/
theorem dropout_reg_eq (dr : ℝ) (n : ℕ) (p : ℝ) :
    dropout_reg dr n p = -Real.binEntropy p * (dr * n) := by
  unfold dropout_reg Real.binEntropy
  rw [Real.log_inv, Real.log_inv]
  ring

/-- C7: with the sum of squares and the input held fixed and the
scaling coefficients positive, the weights regularisation is strictly
increasing in p on (0,1); the dropout regularisation is minimised
exactly at p = 1/2 (where it is strictly negative) and tends to 0 as p
tends to 0 or to 1 inside (0,1). -/
theorem regularisation_shape (wr sos dr : ℝ) (numel : ℕ)
    (hw : 0 < wr * sos) (hd : 0 < dr * (numel : ℝ)) :
    StrictMonoOn (weights_reg wr sos) (Set.Ioo (0 : ℝ) 1) ∧
    (∀ p ∈ Set.Ioo (0 : ℝ) 1,
      dropout_reg dr numel (1/2) ≤ dropout_reg dr numel p) ∧
    (∀ p ∈ Set.Ioo (0 : ℝ) 1, p ≠ 1/2 →
      dropout_reg dr numel (1/2) < dropout_reg dr numel p) ∧
    dropout_reg dr numel (1/2) < 0 ∧
    Filter.Tendsto (fun p => dropout_reg dr numel p)
      (nhdsWithin 0 (Set.Ioo (0 : ℝ) 1)) (nhds 0) ∧
    Filter.Tendsto (fun p => dropout_reg dr numel p)
      (nhdsWithin 1 (Set.Ioo (0 : ℝ) 1)) (nhds 0) := by
  have hhalf : Real.binEntropy (1/2 : ℝ) = Real.log 2 := by
    rw [Real.binEntropy_eq_log_two]
    norm_num
  have key : ∀ a : ℝ, Real.binEntropy a = 0 →
      Filter.Tendsto (fun p => dropout_reg dr numel p)
        (nhdsWithin a (Set.Ioo (0 : ℝ) 1)) (nhds 0) := by
    intro a ha
    have h1 : Filter.Tendsto
        (fun p => -Real.binEntropy p * (dr * (numel : ℝ))) (nhds a)
        (nhds (-Real.binEntropy a * (dr * (numel : ℝ)))) :=
      (Real.binEntropy_continuous.neg.mul continuous_const).tendsto a
    rw [ha] at h1
    simp only [neg_zero, zero_mul] at h1
    have h2 : Filter.Tendsto
        (fun p => -Real.binEntropy p * (dr * (numel : ℝ)))
        (nhdsWithin a (Set.Ioo (0 : ℝ) 1)) (nhds 0) :=
      h1.mono_left nhdsWithin_le_nhds
    simpa only [dropout_reg_eq] using h2
  refine ⟨?_, ?_, ?_, ?_, key 0 Real.binEntropy_zero,
    key 1 Real.binEntropy_one⟩
  · intro a ha b hb hab
    unfold weights_reg
    exact div_lt_div_of_pos_left hw (by linarith [hb.2]) (by linarith)
  · intro p hp
    rw [dropout_reg_eq, dropout_reg_eq, hhalf]
    have h2 := Real.binEntropy_le_log_two (p := p)
    nlinarith
  · intro p hp hne
    rw [dropout_reg_eq, dropout_reg_eq, hhalf]
    have h2 : Real.binEntropy p < Real.log 2 :=
      Real.binEntropy_lt_log_two.mpr (by
        intro hc
        exact hne (by rw [hc]; norm_num))
    nlinarith
  · rw [dropout_reg_eq, hhalf]
    have h2 : (0 : ℝ) < Real.log 2 := Real.log_pos (by norm_num)
    nlinarith

/-- C7 witness: the theorem applied at unit coefficients. -/
theorem regularisation_shape_witness :
    (0 : ℝ) < 1 * 1 ∧ (0 : ℝ) < 1 * ((1 : ℕ) : ℝ) ∧
    (StrictMonoOn (weights_reg 1 1) (Set.Ioo (0 : ℝ) 1) ∧
    (∀ p ∈ Set.Ioo (0 : ℝ) 1,
      dropout_reg 1 1 (1/2) ≤ dropout_reg 1 1 p) ∧
    (∀ p ∈ Set.Ioo (0 : ℝ) 1, p ≠ 1/2 →
      dropout_reg 1 1 (1/2) < dropout_reg 1 1 p) ∧
    dropout_reg 1 1 (1/2) < 0 ∧
    Filter.Tendsto (fun p => dropout_reg 1 1 p)
      (nhdsWithin 0 (Set.Ioo (0 : ℝ) 1)) (nhds 0) ∧
    Filter.Tendsto (fun p => dropout_reg 1 1 p)
      (nhdsWithin 1 (Set.Ioo (0 : ℝ) 1)) (nhds 0)) :=
  ⟨by norm_num, by norm_num,
    regularisation_shape 1 1 1 1 (by norm_num) (by norm_num)⟩

end CondRop
